import Mathlib

/-!
Verification development for the document search, caching and aggregation
engine of the RIS analytics repository (`ratsinfo_crawler/Ratsinfo.py`).

Modelling conventions (shallow embedding):

* A dataset row (one CSV record after loading) is the structure `Row`.
  Timestamps are modelled as `Option Int` (day ordinals); `none` models a
  `NaT` produced by `pd.to_datetime(errors="coerce")`.  In comparisons and
  in the sort order `none` is placed after every real date, matching
  numpy/pandas behaviour since numpy 1.18 where `NaT` sorts last and the
  sort-consistent comparison used by `searchsorted` treats `NaT` as the
  largest value.
* Python's `re` module is modelled by an explicit parameter
  `compile : String → Option (String → Bool)`: `compile w = none` models a
  pattern that raises `re.error`, `some m` models a successfully compiled
  case-insensitive pattern whose per-document search is the Boolean `m`.
  `litCompile` instantiates it with literal case-insensitive substring
  search, the semantics of patterns without metacharacters.
* Python's `str.lower` is modelled by `pyLower`, restricted to the
  characters that occur in the theme lexicon and in the inputs used here
  (ASCII plus the German capital umlauts).
* Python `set` values are modelled as insertion-ordered duplicate-free
  lists built with `addNew`/`dropDup` (`list(set(...))` has unspecified
  order, so all properties proved about them are order-independent).
* `float` shares and averages are modelled as `ℚ`.
* pandas dataframe operations are modelled on `List Row`; the derived
  `count`/`occurrences` columns of matched frames are modelled by pairing
  each row with its `count` value (`Row × Nat`); `occurrences` is assigned
  the same value as `count` in the source and is not duplicated here.
* `df.drop_duplicates()` is modelled by `dropDup` (first occurrence kept).
* The loader/caching layer is made state-explicit: the filesystem is a
  function `Disk`, the module-level `_data_cache` dict is an association
  list threaded through `_load_data_cached`, and a raised exception
  (`FileNotFoundError` from `pd.read_csv`, i.e. the spec's
  `SourceUnavailable`) is an `Except.error`.  The query/aggregation
  functions that in Python take a file path and call `_load_data_cached`
  are split into a pure core over the loaded table plus an `...E` wrapper
  that models the load-and-propagate (or load-and-recover) behaviour.
* `_slice_by_date` contains a defensive re-sort for unsorted input; every
  call site passes tables produced by `_load_data_cached`, which sorts by
  submission date with `NaT` last, so the model assumes that invariant
  (the re-sort is a sorted permutation and all proved properties are at
  the set/count level).  The spaCy theme detection column
  (`annotate_themes=True`) is presentation-level, is `False` on every
  aggregation path considered here and is not modelled.
-/

/-- Model of Python `str.lower` on a single character, restricted to the
character set used by the theme lexicon and the inputs in this file:
ASCII letters plus the German capital umlauts. Other characters are kept
unchanged (as Python does for already-lowercase text, digits, `ß`, …). -/
def pyLowerChar (c : Char) : Char :=
  if 'A' ≤ c ∧ c ≤ 'Z' then Char.ofNat (c.toNat + 32)
  else if c = 'Ä' then 'ä'
  else if c = 'Ö' then 'ö'
  else if c = 'Ü' then 'ü'
  else c

/-- Model of Python `str.lower` (see `pyLowerChar`). -/
def pyLower (s : String) : String := String.mk (s.data.map pyLowerChar)

/-- Whitespace as used by Python `str.strip()` (the characters relevant to
the modelled inputs). -/
def isSpaceChar (c : Char) : Bool := c = ' ' || c = '\t' || c = '\n' || c = '\r'

/-- Model of the guard `not word or word.strip() == ""`: true iff the string
is empty or consists of whitespace only. -/
def isBlank (s : String) : Bool := s.data.all isSpaceChar

/-- Strip leading and trailing whitespace from a character list
(Python `str.strip()`). -/
def stripChars (cs : List Char) : List Char :=
  ((cs.dropWhile isSpaceChar).reverse.dropWhile isSpaceChar).reverse

/-- `cs.split(',')` on character lists (Python `str.split(',')`):
`splitCommaAux cs []` returns the comma-separated pieces of `cs`. -/
def splitCommaAux : List Char → List Char → List (List Char)
  | [], acc => [acc.reverse]
  | c :: rest, acc =>
    if c = ',' then acc.reverse :: splitCommaAux rest []
    else splitCommaAux rest (c :: acc)

/-- Model of `.str.split(',')` followed by `.str.strip()` on the exploded
parts, as applied to the submitter column. -/
def splitVon (s : String) : List String :=
  (splitCommaAux s.data []).map (fun cs => String.mk (stripChars cs))

/-- `isPre p c` : the character list `p` is a prefix of `c`. -/
def isPre : List Char → List Char → Bool
  | [], _ => true
  | _ :: _, [] => false
  | a :: as, b :: bs => a == b && isPre as bs

/-- `isSub p c` : the character list `p` occurs as a contiguous segment of
`c` (at least one occurrence). -/
def isSub (p : List Char) : List Char → Bool
  | [] => isPre p []
  | c :: cs => isPre p (c :: cs) || isSub p cs

/-- `occursCI pattern content` : the pattern occurs at least once in the
content, case-insensitively — the semantics of
`re.search(re.compile(pattern, re.IGNORECASE), content)` for patterns
without regex metacharacters. -/
def occursCI (pattern content : String) : Bool :=
  isSub (pyLower pattern).data (pyLower content).data

/-- The literal instantiation of the regex-engine parameter: every pattern
compiles, and matching is case-insensitive substring occurrence. -/
def litCompile : String → Option (String → Bool) :=
  fun p => some (fun c => occursCI p c)

/-- One loaded dataset row (after `_load_data_cached`): the required CSV
columns with the submission/completion dates already parsed
(`pd.to_datetime(errors="coerce")`, `none` = `NaT`). `document_link` is a
pass-through identifier column and is represented by `name` alone. -/
structure Row where
  document_content : String
  gestellt_am : Option Int
  erledigt_am : Option Int
  typ : String
  gestellt_von : String
  referat : String
  name : String
deriving DecidableEq, Repr

/-- The rule-based theme lexicon `THEME_MAP` of `Ratsinfo.py`, verbatim:
theme name paired with its phrase list. -/
def THEME_MAP : List (String × List String) :=
  [ ("Wohnen",
      ["Wohnung", "Miete", "Mietspiegel", "Wohnraum", "Zimmer", "Vermietung",
       "Untermiete"]),
    ("Mobilitaet",
      ["ÖPNV", "Bus", "Tram", "Straßenbahn", "U-Bahn", "S-Bahn", "Fahrrad",
       "Radweg", "Parkplatz"]),
    ("Bildung",
      ["Schule", "Kita", "Kindergarten", "Universität", "Hochschule",
       "Ausbildung"]),
    ("Umwelt",
      ["Klimaschutz", "CO2", "Emissionen", "Nachhaltigkeit", "Energiewende",
       "Solaranlagen", "Grünflächen", "Parks", "Bäume", "Begrünung",
       "Abfallwirtschaft", "Recycling"]),
    ("Soziales",
      ["Sozialhilfe", "Grundsicherung", "Armut", "Obdachlosigkeit",
       "Migration", "Integration", "Flüchtlinge", "Chancengleichheit",
       "Familien"]),
    ("Kultur",
      ["Theater", "Museen", "Kunstförderung", "Kulturzentren", "Bibliotheken",
       "Kulturelle Vielfalt", "Denkmalschutz", "Architektur"]),
    ("Gesundheit",
      ["Krankenhäuser", "Ärzte", "Gesundheitsversorgung", "Psychiatrie",
       "Pflege", "Altenbetreuung", "Behindertenbetreuung", "Pandemie"]),
    ("Wirtschaft",
      ["Arbeitsmarkt", "Arbeitsplätze", "Unternehmensförderung",
       "Gewerbebetriebe", "Handwerk", "Startups", "Fachkräftemangel"]),
    ("Sicherheit",
      ["Polizei", "Feuerwehr", "Kriminalität", "Ordnung", "Sauberkeit",
       "Verkehrssicherheit", "Prävention"]),
    ("Sport",
      ["Sportanlagen", "Freizeiteinrichtungen", "Schwimmbäder", "Spielplätze",
       "Sportförderung", "Jugendangebote"]),
    ("Digitalisierung",
      ["Breitband", "Glasfaser", "5G", "Smart City", "Digitalisierung",
       "IT-Infrastruktur", "Online-Dienste"]),
    ("Versorgung",
      ["Wasser", "Energieversorgung", "Tierschutz", "Kinderrechte",
       "Verbraucherschutz"]) ]

/-- Add an element to an insertion-ordered duplicate-free list unless it is
already present — the model of Python `set.add`. -/
def addNew {α : Type} [DecidableEq α] (acc : List α) (x : α) : List α :=
  if x ∈ acc then acc else acc ++ [x]

/-- Remove duplicates keeping first occurrences — the model of
`df.drop_duplicates()` and of collecting values into a Python `set`. -/
def dropDup {α : Type} [DecidableEq α] (l : List α) : List α :=
  l.foldl addNew []

/-- The per-theme test of `_expand_search_terms_with_themes`:
`lower_word == theme_lower or lower_word in phrase_lowers`. -/
def themeMatches (word : String) (tp : String × List String) : Bool :=
  decide (pyLower word = pyLower tp.1 ∨ pyLower word ∈ tp.2.map pyLower)

/-- Body of the inner loop of `_expand_search_terms_with_themes`: on a
match, `expanded.update(phrases); expanded.add(theme)`. -/
def themeStep (word : String) (acc : List String) (tp : String × List String) :
    List String :=
  if themeMatches word tp then addNew (tp.2.foldl addNew acc) tp.1 else acc

/-- Body of the outer loop of `_expand_search_terms_with_themes`: skip falsy
(empty) terms, otherwise `expanded.add(word)` and scan every theme. -/
def wordStep (acc : List String) (word : String) : List String :=
  if word = "" then acc else THEME_MAP.foldl (themeStep word) (addNew acc word)

/-- `_expand_search_terms_with_themes(words)` with the module-level
`THEME_MAP`: the returned `list(expanded)` set is modelled as an
insertion-ordered duplicate-free list. -/
def _expand_search_terms_with_themes (words : List String) : List String :=
  words.foldl wordStep []

/-- `dates < from` test used by `searchsorted(date_from_ts)` (side `left`):
the number of leading rows satisfying this on a date-sorted table is the
first index `≥ from`. A `NaT` date compares as the largest value. -/
def beforeFrom (v : Int) (r : Row) : Bool :=
  match r.gestellt_am with
  | some d => decide (d < v)
  | none => false

/-- `dates ≤ to` test used by `searchsorted(date_to_ts, side="right")`: the
number of leading rows satisfying this on a date-sorted table is the first
index `> to`. A `NaT` date compares as the largest value. -/
def atMostTo (v : Int) (r : Row) : Bool :=
  match r.gestellt_am with
  | some d => decide (d ≤ v)
  | none => false

/-- `_slice_by_date(df, date_from, date_to)`: binary-search slice
`df.iloc[start:end]` on a table sorted by submission date (`NaT` last);
an absent bound defaults to the full range. The defensive re-sort branch
of the source is the identity (up to reordering of equal dates) on the
sorted tables produced by the loader and is not modelled. -/
def _slice_by_date (df : List Row) (dateFrom dateTo : Option Int) : List Row :=
  let startIdx : Nat :=
    match dateFrom with
    | none => 0
    | some v => (df.takeWhile (beforeFrom v)).length
  let endIdx : Nat :=
    match dateTo with
    | none => df.length
    | some v => (df.takeWhile (atMostTo v)).length
  (df.take endIdx).drop startIdx

/-- The date-filter step of `find_words_frequency`:
`if date_filter and (date_filter.get("from") or date_filter.get("to")):
base_df = _slice_by_date(...)`. -/
def sliceForFilter (df : List Row) (date_filter : Option (Option Int × Option Int)) :
    List Row :=
  match date_filter with
  | some (f, t) => if f.isSome || t.isSome then _slice_by_date df f t else df
  | none => df

/-- The type-filter step `if typ_filter: df = df[df["Typ"].isin(typ_filter)]`
on plain rows (an empty list is falsy in Python, hence no filtering). -/
def typRestrict (typ_filter : List String) (df : List Row) : List Row :=
  if typ_filter.isEmpty then df else df.filter (fun r => decide (r.typ ∈ typ_filter))

/-- The same type-filter step applied to matched rows carrying their
`count` column. -/
def typRestrictPairs (typ_filter : List String) (df : List (Row × Nat)) :
    List (Row × Nat) :=
  if typ_filter.isEmpty then df
  else df.filter (fun p => decide (p.1.typ ∈ typ_filter))

/-- `_process_word` inside `find_words_frequency`: per-term vectorized
matching over the shared pre-sliced table. A blank or uncompilable term
yields no rows; otherwise the matching rows are returned, each with
`count = 1` (`.str.contains(pattern).astype(int)` followed by
`df[df["count"] > 0]`). -/
def _process_word (compile : String → Option (String → Bool)) (base_df : List Row)
    (word : String) : List (Row × Nat) :=
  if isBlank word then []
  else
    match compile word with
    | none => []
    | some m => (base_df.filter (fun r => m r.document_content)).map (fun r => (r, 1))

/-- `find_word_occurrences(file, word)` after the load: documents whose
content matches the compiled case-insensitive pattern, each counted at
most once, and the total hit count `df["count"].sum()`. Blank or invalid
patterns return no rows and count 0. -/
def find_word_occurrences (compile : String → Option (String → Bool))
    (df : List Row) (word : String) : List Row × Nat :=
  if isBlank word then ([], 0)
  else
    match compile word with
    | none => ([], 0)
    | some m =>
      let hits := df.filter (fun r => m r.document_content)
      (hits, hits.length)

/-- `find_words_frequency(file, words, typ_filter, date_filter,
expand_with_themes)` after the load: optional theme expansion, one date
slice shared by all terms, the match-all special case for an empty or
entirely-falsy term list, otherwise the per-term matches merged by
concatenation, de-duplicated and type-filtered. Returns the matched rows
(with their `count` column) and `totalCount = len(rows_with_words)`.
The thread-pool fan-out of the source returns the per-term frames in
nondeterministic completion order; the model uses term order, which yields
the same de-duplicated row set and count. -/
def find_words_frequency (compile : String → Option (String → Bool))
    (base_df : List Row) (words : List String) (typ_filter : List String)
    (date_filter : Option (Option Int × Option Int)) (expand_with_themes : Bool) :
    List (Row × Nat) × Nat :=
  let search_terms :=
    if expand_with_themes then _expand_search_terms_with_themes words else words
  let base := sliceForFilter base_df date_filter
  if search_terms.isEmpty || search_terms.all (fun w => w == "") then
    let df := typRestrict typ_filter base
    (df.map (fun r => (r, 1)), df.length)
  else
    let rows :=
      typRestrictPairs typ_filter
        (dropDup ((search_terms.map (_process_word compile base)).flatten))
    (rows, rows.length)

/-- Lexicographic comparison of strings via their character lists
(the ordering used by pandas when sorting/grouping string keys). -/
def lexLe : List Char → List Char → Bool
  | [], _ => true
  | _ :: _, [] => false
  | a :: as, b :: bs =>
    if a < b then true else if b < a then false else lexLe as bs

/-- String comparison used for group keys (see `lexLe`). -/
def strLe (a b : String) : Bool := lexLe a.data b.data

/-- Insert into a list sorted by `le` (helper for `sortListBy`). -/
def insertSortedBy {α : Type} (le : α → α → Bool) (x : α) : List α → List α
  | [] => [x]
  | y :: ys => if le x y then x :: y :: ys else y :: insertSortedBy le x ys

/-- Sorting by a Boolean comparison — the model of pandas
`sort_values`/sorted group keys (pandas' quicksort is unstable, so only
order up to permutation of ties is meaningful; all properties proved here
are order-independent). -/
def sortListBy {α : Type} (le : α → α → Bool) (l : List α) : List α :=
  l.foldr (insertSortedBy le) []

/-- Result record of `compute_processing_metrics` (scalar part). The
`byReferat` per-department breakdown of the source is computed separately
from `closed_rows` and does not feed back into these four fields; it is
outside the modelled scope. -/
structure ProcessingMetrics where
  avgDays : Option ℚ
  openCount : Nat
  closedCount : Nat
  totalCount : Nat
deriving Repr

/-- `compute_processing_metrics(file, words, typ_filter, date_filter)`
after the load: partition the matched rows into closed (`Erledigt am`
present) and open; `processing_days = (Erledigt am - Gestellt am).dt.days`
is only a number when both dates parse (otherwise `NaN`, dropped by
`dropna()` before the mean). -/
def compute_processing_metrics (compile : String → Option (String → Bool))
    (base : List Row) (words : List String) (typ_filter : List String)
    (date_filter : Option (Option Int × Option Int)) : ProcessingMetrics :=
  let rows := (find_words_frequency compile base words typ_filter date_filter true).1
  if rows.isEmpty then ⟨none, 0, 0, 0⟩
  else
    let closed := rows.filter (fun p => p.1.erledigt_am.isSome)
    let opened := rows.filter (fun p => p.1.erledigt_am.isNone)
    let valid : List Int := closed.filterMap (fun p =>
      match p.1.erledigt_am, p.1.gestellt_am with
      | some e, some g => some (e - g)
      | _, _ => none)
    let avg : Option ℚ :=
      if valid.isEmpty then none else some ((valid.sum : ℚ) / (valid.length : ℚ))
    ⟨avg, opened.length, closed.length, rows.length⟩

/-- One output row of `compute_fraktionen_share`:
`[name, share, count, total]` with `share = count / total`. -/
structure ShareEntry where
  name : String
  count : Nat
  total : Nat
  share : ℚ
deriving Repr

/-- `compute_fraktionen_share(file, words, "Gestellt von", typ_filter,
date_filter)` after the load. Totals come from the full table restricted
by the type filter and by per-bound date masks (`>= from`, `<= to`, which
drop `NaT` rows); matched counts come from `find_words_frequency` (whose
date restriction is the `_slice_by_date` binary-search slice). Submitters
are exploded on commas and stripped on both passes; the left merge keeps
exactly the submitters present in the totals, missing matched counts
become 0 and are then filtered out by `count > 0`; `share = count/total`
(`total` is a group size, hence never 0 for a kept name); the result is
sorted descending by share. -/
def compute_fraktionen_share (compile : String → Option (String → Bool))
    (base : List Row) (words : List String) (typ_filter : List String)
    (date_filter : Option (Option Int × Option Int)) : List ShareEntry :=
  let df_all := typRestrict typ_filter base
  let df_all : List Row :=
    match date_filter with
    | none => df_all
    | some (f, t) =>
      let d1 : List Row :=
        match f with
        | some v => df_all.filter (fun r =>
            match r.gestellt_am with
            | some d => decide (v ≤ d)
            | none => false)
        | none => df_all
      match t with
      | some v => d1.filter (fun r =>
          match r.gestellt_am with
          | some d => decide (d ≤ v)
          | none => false)
      | none => d1
  let exploded := (df_all.map (fun r => splitVon r.gestellt_von)).flatten
  let totals := (dropDup exploded).map (fun n => (n, exploded.count n))
  let matched := (find_words_frequency compile base words typ_filter date_filter true).1
  let mexp :=
    (matched.map (fun p => (splitVon p.1.gestellt_von).map (fun n => (n, p.2)))).flatten
  let merged := totals.map (fun nt =>
    (nt.1, ((mexp.filter (fun q => q.1 == nt.1)).map (fun q => q.2)).sum, nt.2))
  let merged := merged.filter (fun x => decide (0 < x.2.1))
  sortListBy (fun a b => decide (b.share ≤ a.share))
    (merged.map (fun x =>
      { name := x.1, count := x.2.1, total := x.2.2,
        share := (x.2.1 : ℚ) / (x.2.2 : ℚ) }))

/-- One output row of `compute_monthly_trend`. -/
structure MonthRow where
  month : String
  count : Nat
  typ_breakdown : List (String × Nat)
deriving Repr

/-- `compute_monthly_trend(file, words, typ_filter, date_filter)` after the
load. The `strftime("%Y-%m")` month key of a parsed date is modelled by
the external parameter `monthKey`. Rows with unparseable submission dates
are dropped; counts are summed per month (and per month/type), months
sorted ascending. -/
def compute_monthly_trend (monthKey : Int → String)
    (compile : String → Option (String → Bool)) (base : List Row)
    (words : List String) (typ_filter : List String)
    (date_filter : Option (Option Int × Option Int)) : List MonthRow :=
  let rows := (find_words_frequency compile base words typ_filter date_filter true).1
  if rows.isEmpty then []
  else
    let dated := rows.filterMap (fun p =>
      match p.1.gestellt_am with
      | some d => some (monthKey d, p)
      | none => none)
    let months := sortListBy strLe (dropDup (dated.map (fun q => q.1)))
    months.map (fun m =>
      let inMonth := dated.filter (fun q => q.1 == m)
      let typs := sortListBy strLe (dropDup (inMonth.map (fun q => q.2.1.typ)))
      { month := m,
        count := (inMonth.map (fun q => q.2.2)).sum,
        typ_breakdown := typs.map (fun t =>
          (t, ((inMonth.filter (fun q => q.2.1.typ == t)).map (fun q => q.2.2)).sum)) })

/-- One output row of `compute_fraktionen`. -/
structure FraktionRow where
  name : String
  count : Nat
  typ_breakdown : List (String × Nat)
deriving Repr

/-- `compute_fraktionen(file, words, "Gestellt von", typ_filter,
date_filter)` after the load: explode comma-separated submitters, sum the
`count` column per submitter (and per submitter/type), sort descending by
count. -/
def compute_fraktionen (compile : String → Option (String → Bool))
    (base : List Row) (words : List String) (typ_filter : List String)
    (date_filter : Option (Option Int × Option Int)) : List FraktionRow :=
  let rows := (find_words_frequency compile base words typ_filter date_filter true).1
  if rows.isEmpty then []
  else
    let exploded :=
      (rows.map (fun p => (splitVon p.1.gestellt_von).map (fun n => (n, p)))).flatten
    let names := sortListBy strLe (dropDup (exploded.map (fun q => q.1)))
    let agg := names.map (fun n =>
      let forName := exploded.filter (fun q => q.1 == n)
      let typs := sortListBy strLe (dropDup (forName.map (fun q => q.2.1.typ)))
      { name := n,
        count := (forName.map (fun q => q.2.2)).sum,
        typ_breakdown := typs.map (fun t =>
          (t, ((forName.filter (fun q => q.2.1.typ == t)).map (fun q => q.2.2)).sum))
        : FraktionRow })
    sortListBy (fun a b => decide (b.count ≤ a.count)) agg

/-- Result of `compute_date_range`: the `strftime("%Y-%m-%d")` rendering of
the two scalar dates is presentation-level; the dates themselves are kept. -/
structure DateRange where
  minDate : Option Int
  maxDate : Option Int
deriving DecidableEq, Repr

/-- `compute_date_range(file)` after a successful load: min/max of the
parseable submission dates, null bounds when none are valid. -/
def compute_date_range (base : List Row) : DateRange :=
  if base.isEmpty then ⟨none, none⟩
  else
    match base.filterMap (fun r => r.gestellt_am) with
    | [] => ⟨none, none⟩
    | d :: ds => ⟨some (ds.foldl min d), some (ds.foldl max d)⟩

/-- `get_available_typen(file)` after a successful load: distinct type
values, sorted ascending. -/
def get_available_typen (base : List Row) : List String :=
  if base.isEmpty then [] else sortListBy strLe (dropDup (base.map (fun r => r.typ)))

/-- The filesystem as seen by the loader: a source path maps to its
modification time and raw (unsorted) parsed rows, or to `none` when the
file cannot be opened. -/
def Disk : Type := String → Option (Int × List Row)

/-- Ordering by submission date with `NaT` placed last — the sort key of
`df.sort_values("Gestellt am")` after date normalization. -/
def dateRowLe (a b : Row) : Bool :=
  match a.gestellt_am, b.gestellt_am with
  | some x, some y => decide (x ≤ y)
  | some _, none => true
  | none, some _ => false
  | none, none => true

/-- The one-time sort of a freshly loaded table (see `dateRowLe`). -/
def sortByDate (df : List Row) : List Row := sortListBy dateRowLe df

/-- The module-level `_data_cache` dict: per source path, the cached table
and the modification time it was loaded under. -/
def Cache : Type := List (String × Int × List Row)

/-- `_data_cache[file] = {'data': df, 'mtime': mtime}`. -/
def cacheStore (cache : Cache) (file : String) (mt : Int) (tbl : List Row) : Cache :=
  (file, mt, tbl) :: cache.filter (fun e => !(e.1 == file))

/-- `_load_data_cached(file)` made state-explicit: an unreadable source is
`SourceUnavailable`; a cache hit under an unchanged modification time
returns the cached table (callers receive a private copy — value
semantics here); otherwise the raw rows are date-sorted, cached under the
current modification time, and returned. -/
def _load_data_cached (disk : Disk) (cache : Cache) (file : String) :
    Except String (List Row × Cache) :=
  match disk file with
  | none => Except.error "SourceUnavailable"
  | some (mt, raw) =>
    match cache.find? (fun e => e.1 == file) with
    | some e =>
      if e.2.1 = mt then Except.ok (e.2.2, cache)
      else
        let tbl := sortByDate raw
        Except.ok (tbl, cacheStore cache file mt tbl)
    | none =>
      let tbl := sortByDate raw
      Except.ok (tbl, cacheStore cache file mt tbl)

/-- `find_words_frequency` with the load step made explicit: the
`SourceUnavailable` error of the loader propagates (the source has no
handler around `_load_data_cached`). -/
def find_words_frequencyE (compile : String → Option (String → Bool))
    (src : Except String (List Row)) (words : List String)
    (typ_filter : List String) (date_filter : Option (Option Int × Option Int))
    (expand_with_themes : Bool) : Except String (List (Row × Nat) × Nat) :=
  match src with
  | .error e => .error e
  | .ok base => .ok (find_words_frequency compile base words typ_filter date_filter
      expand_with_themes)

/-- `compute_monthly_trend` with the load step explicit (no handler:
the loader's error propagates). -/
def compute_monthly_trendE (monthKey : Int → String)
    (compile : String → Option (String → Bool)) (src : Except String (List Row))
    (words : List String) (typ_filter : List String)
    (date_filter : Option (Option Int × Option Int)) :
    Except String (List MonthRow) :=
  match src with
  | .error e => .error e
  | .ok base => .ok (compute_monthly_trend monthKey compile base words typ_filter date_filter)

/-- `compute_fraktionen` with the load step explicit (no handler). -/
def compute_fraktionenE (compile : String → Option (String → Bool))
    (src : Except String (List Row)) (words : List String)
    (typ_filter : List String) (date_filter : Option (Option Int × Option Int)) :
    Except String (List FraktionRow) :=
  match src with
  | .error e => .error e
  | .ok base => .ok (compute_fraktionen compile base words typ_filter date_filter)

/-- `compute_fraktionen_share` with the load step explicit (no handler). -/
def compute_fraktionen_shareE (compile : String → Option (String → Bool))
    (src : Except String (List Row)) (words : List String)
    (typ_filter : List String) (date_filter : Option (Option Int × Option Int)) :
    Except String (List ShareEntry) :=
  match src with
  | .error e => .error e
  | .ok base => .ok (compute_fraktionen_share compile base words typ_filter date_filter)

/-- `compute_processing_metrics` with the load step explicit (no handler). -/
def compute_processing_metricsE (compile : String → Option (String → Bool))
    (src : Except String (List Row)) (words : List String)
    (typ_filter : List String) (date_filter : Option (Option Int × Option Int)) :
    Except String ProcessingMetrics :=
  match src with
  | .error e => .error e
  | .ok base => .ok (compute_processing_metrics compile base words typ_filter date_filter)

/-- `compute_date_range` with the load step explicit: the source wraps its
whole body in `try/except Exception`, printing the error and returning
`{"minDate": None, "maxDate": None}` — the loader's error is recovered
internally, not propagated. -/
def compute_date_rangeE (src : Except String (List Row)) : DateRange :=
  match src with
  | .error _ => ⟨none, none⟩
  | .ok base => compute_date_range base

/-- `get_available_typen` with the load step explicit: `try/except
Exception` returning `[]` — the loader's error is recovered internally. -/
def get_available_typenE (src : Except String (List Row)) : List String :=
  match src with
  | .error _ => []
  | .ok base => get_available_typen base

/-- Characterization of membership in the expanded term set: the term is a
kept (nonempty) input word, or the name or a phrase of a theme matched by
some input word. -/
def wordHit (w x : String) : Prop :=
  w ≠ "" ∧ (x = w ∨ ∃ tp ∈ THEME_MAP, themeMatches w tp = true ∧ (x = tp.1 ∨ x ∈ tp.2))

/-- Concrete row: content without the probe word, parseable date. -/
def docQ : Row := ⟨"q", some 0, none, "T", "A", "", "r1"⟩

/-- Concrete row: matching content, unparseable (`NaT`) submission date. -/
def docZebraEins : Row := ⟨"zebra eins", none, none, "T", "A", "", "r2"⟩

/-- Concrete row: second matching content, unparseable submission date. -/
def docZebraZwei : Row := ⟨"zebra zwei", none, none, "T", "A", "", "r3"⟩

/-- Concrete row with plain content `"x"`. -/
def docPlainX : Row := ⟨"x", some 0, none, "T", "A", "", "r0"⟩

/-- Concrete row whose content mentions the probe word twice in different
cases. -/
def docDoubleZebra : Row := ⟨"Ein Zebra, noch ein zebra", some 0, none, "T", "A", "", "rd"⟩

/-- Concrete row that is closed (`Erledigt am` present) but has an
unparseable submission date. -/
def docClosedNoDate : Row := ⟨"x", none, some 5, "T", "A", "R", "rc"⟩

/-- A regex-engine instance under which the pattern `"["` fails to compile
(as it does in Python's `re`) and every other pattern matches literally. -/
def compileRejecting : String → Option (String → Bool) :=
  fun p => if p = "[" then none else litCompile p

/-- Concrete filesystem state: one source file with modification time 3 and
two rows stored in unsorted order. -/
def diskV1 : Disk :=
  fun f => if f = "data.csv" then some (3, [docZebraEins, docQ]) else none

/-- The same source path after a modification: new modification time 5 and
new content. -/
def diskV2 : Disk :=
  fun f => if f = "data.csv" then some (5, [docQ]) else none

theorem mem_addNew {α : Type} [DecidableEq α] {acc : List α} {x y : α} :
    x ∈ addNew acc y ↔ x = y ∨ x ∈ acc := by
  unfold addNew
  split
  · next h =>
    constructor
    · exact Or.inr
    · rintro (rfl | hx) <;> assumption
  · simp [List.mem_append, or_comm]

theorem mem_foldl_addNew {α : Type} [DecidableEq α] (l : List α) :
    ∀ (acc : List α) (x : α), x ∈ l.foldl addNew acc ↔ x ∈ acc ∨ x ∈ l := by
  induction l with
  | nil => simp
  | cons a as ih =>
    intro acc x
    rw [List.foldl_cons, ih, mem_addNew, List.mem_cons]
    tauto

theorem mem_dropDup {α : Type} [DecidableEq α] (l : List α) (x : α) :
    x ∈ dropDup l ↔ x ∈ l := by
  unfold dropDup
  rw [mem_foldl_addNew]
  simp

theorem nodup_addNew {α : Type} [DecidableEq α] {acc : List α} (h : acc.Nodup)
    (y : α) : (addNew acc y).Nodup := by
  unfold addNew
  split
  · exact h
  · next hy =>
    rw [List.nodup_append]
    exact ⟨h, List.nodup_singleton y, by
      intro a ha hay
      rw [List.mem_singleton] at hay
      exact hy (hay ▸ ha)⟩

theorem nodup_foldl_addNew {α : Type} [DecidableEq α] (l : List α) :
    ∀ acc : List α, acc.Nodup → (l.foldl addNew acc).Nodup := by
  induction l with
  | nil => exact fun acc h => h
  | cons a as ih => exact fun acc h => ih (addNew acc a) (nodup_addNew h a)

theorem nodup_dropDup {α : Type} [DecidableEq α] (l : List α) :
    (dropDup l).Nodup := nodup_foldl_addNew l [] List.nodup_nil

theorem mem_themeStep {w x : String} {acc : List String} {tp : String × List String} :
    x ∈ themeStep w acc tp ↔
      x ∈ acc ∨ (themeMatches w tp = true ∧ (x = tp.1 ∨ x ∈ tp.2)) := by
  unfold themeStep
  split
  · next h =>
    rw [mem_addNew, mem_foldl_addNew]
    simp only [h, true_and]
    tauto
  · next h =>
    simp [h]

theorem mem_foldl_themeStep (l : List (String × List String)) (w x : String) :
    ∀ acc : List String,
      x ∈ l.foldl (themeStep w) acc ↔
        x ∈ acc ∨ ∃ tp ∈ l, themeMatches w tp = true ∧ (x = tp.1 ∨ x ∈ tp.2) := by
  induction l with
  | nil => simp
  | cons a as ih =>
    intro acc
    rw [List.foldl_cons, ih, mem_themeStep]
    simp only [List.mem_cons]
    constructor
    · rintro ((h | h) | ⟨tp, htp, h⟩)
      · exact Or.inl h
      · exact Or.inr ⟨a, Or.inl rfl, h⟩
      · exact Or.inr ⟨tp, Or.inr htp, h⟩
    · rintro (h | ⟨tp, (rfl | htp), h⟩)
      · exact Or.inl (Or.inl h)
      · exact Or.inl (Or.inr h)
      · exact Or.inr ⟨tp, htp, h⟩

theorem mem_wordStep {acc : List String} {w x : String} :
    x ∈ wordStep acc w ↔ x ∈ acc ∨ wordHit w x := by
  unfold wordStep wordHit
  split
  · next h => simp [h]
  · next h =>
    rw [mem_foldl_themeStep, mem_addNew]
    simp only [h, ne_eq, not_false_eq_true, true_and]
    constructor
    · rintro ((rfl | hacc) | hex)
      · exact Or.inr (Or.inl rfl)
      · exact Or.inl hacc
      · exact Or.inr (Or.inr hex)
    · rintro (hacc | (rfl | hex))
      · exact Or.inl (Or.inr hacc)
      · exact Or.inl (Or.inl rfl)
      · exact Or.inr hex

theorem mem_foldl_wordStep (words : List String) (x : String) :
    ∀ acc : List String,
      x ∈ words.foldl wordStep acc ↔ x ∈ acc ∨ ∃ w ∈ words, wordHit w x := by
  induction words with
  | nil => simp
  | cons a as ih =>
    intro acc
    rw [List.foldl_cons, ih]
    simp only [List.mem_cons, mem_wordStep]
    constructor
    · rintro ((h | h) | ⟨w, hw, h⟩)
      · exact Or.inl h
      · exact Or.inr ⟨a, Or.inl rfl, h⟩
      · exact Or.inr ⟨w, Or.inr hw, h⟩
    · rintro (h | ⟨w, (rfl | hw), h⟩)
      · exact Or.inl (Or.inl h)
      · exact Or.inl (Or.inr h)
      · exact Or.inr ⟨w, hw, h⟩

theorem mem_expand (words : List String) (x : String) :
    x ∈ _expand_search_terms_with_themes words ↔ ∃ w ∈ words, wordHit w x := by
  unfold _expand_search_terms_with_themes
  rw [mem_foldl_wordStep]
  simp

theorem searchCond_false {st : List String} {t0 : String} (ht : t0 ∈ st)
    (h0 : t0 ≠ "") : (st.isEmpty || st.all (fun w => w == "")) = false := by
  cases hb : (st.isEmpty || st.all (fun w => w == "")) with
  | false => rfl
  | true =>
    exfalso
    simp only [Bool.or_eq_true, List.isEmpty_iff, List.all_eq_true, beq_iff_eq] at hb
    rcases hb with rfl | h2
    · cases ht
    · exact h0 (h2 t0 ht)

theorem mem_typRestrictPairs {tf : List String} {l : List (Row × Nat)} {p : Row × Nat} :
    p ∈ typRestrictPairs tf l ↔ p ∈ l ∧ (tf.isEmpty = true ∨ p.1.typ ∈ tf) := by
  unfold typRestrictPairs
  split
  · next h => simp [h]
  · next h =>
    rw [List.mem_filter]
    simp only [decide_eq_true_eq]
    constructor
    · rintro ⟨h1, h2⟩
      exact ⟨h1, Or.inr h2⟩
    · rintro ⟨h1, (h2 | h2)⟩
      · exact absurd h2 h
      · exact ⟨h1, h2⟩

theorem mem_find_words_fst {compile : String → Option (String → Bool)}
    {base_df : List Row} {words : List String} {tf : List String}
    {dfil : Option (Option Int × Option Int)} {ex : Bool} {p : Row × Nat}
    (h : ((if ex then _expand_search_terms_with_themes words else words).isEmpty
        || (if ex then _expand_search_terms_with_themes words else words).all
            (fun w => w == "")) = false) :
    p ∈ (find_words_frequency compile base_df words tf dfil ex).1 ↔
      (∃ w ∈ (if ex then _expand_search_terms_with_themes words else words),
          p ∈ _process_word compile (sliceForFilter base_df dfil) w)
        ∧ (tf.isEmpty = true ∨ p.1.typ ∈ tf) := by
  simp only [find_words_frequency]
  rw [h]
  simp only [Bool.false_eq_true, if_false, mem_typRestrictPairs, mem_dropDup,
    List.mem_flatten, List.mem_map]
  constructor
  · rintro ⟨⟨l, ⟨w, hw, rfl⟩, hp⟩, hty⟩
    exact ⟨⟨w, hw, hp⟩, hty⟩
  · rintro ⟨⟨w, hw, hp⟩, hty⟩
    exact ⟨⟨_, ⟨w, hw, rfl⟩, hp⟩, hty⟩

theorem find_words_snd (compile : String → Option (String → Bool))
    (base_df : List Row) (words : List String) (tf : List String)
    (dfil : Option (Option Int × Option Int)) (ex : Bool) :
    (find_words_frequency compile base_df words tf dfil ex).2
      = (find_words_frequency compile base_df words tf dfil ex).1.length := by
  simp only [find_words_frequency]
  by_cases h : ((if ex then _expand_search_terms_with_themes words else words).isEmpty
      || (if ex then _expand_search_terms_with_themes words else words).all
          (fun w => w == "")) = true
  · rw [if_pos h]
    simp
  · rw [if_neg h]

theorem nodup_find_words_fst {compile : String → Option (String → Bool)}
    {base_df : List Row} {words : List String} {tf : List String}
    {dfil : Option (Option Int × Option Int)} {ex : Bool}
    (h : ((if ex then _expand_search_terms_with_themes words else words).isEmpty
        || (if ex then _expand_search_terms_with_themes words else words).all
            (fun w => w == "")) = false) :
    (find_words_frequency compile base_df words tf dfil ex).1.Nodup := by
  simp only [find_words_frequency]
  rw [h]
  simp only [Bool.false_eq_true, if_false]
  unfold typRestrictPairs
  split
  · exact nodup_dropDup _
  · exact (nodup_dropDup _).filter _

theorem process_word_snd {compile : String → Option (String → Bool)}
    {base : List Row} {w : String} {p : Row × Nat}
    (h : p ∈ _process_word compile base w) : p.2 = 1 := by
  unfold _process_word at h
  split at h
  · cases h
  · split at h
    · cases h
    · rcases List.mem_map.mp h with ⟨r, _, rfl⟩
      rfl

theorem sum_map_snd_eq_length {l : List (Row × Nat)} (h : ∀ p ∈ l, p.2 = 1) :
    (l.map Prod.snd).sum = l.length := by
  induction l with
  | nil => rfl
  | cons a as ih =>
    simp only [List.map_cons, List.sum_cons, List.length_cons,
      h a (List.mem_cons_self a as)]
    rw [ih (fun p hp => h p (List.mem_cons_of_mem a hp))]
    omega

theorem length_filter_add_not {α : Type} (l : List α) (p : α → Bool) :
    (l.filter p).length + (l.filter (fun a => !p a)).length = l.length := by
  induction l with
  | nil => rfl
  | cons a as ih =>
    cases h : p a <;> simp [List.filter_cons, h] <;> omega

/-- Claim C1, counterexample to the unrestricted statement: for the empty
pattern `""`, which occurs (case-insensitively, at least once) in the
content `"x"`, the term matcher nevertheless returns no matched rows and
hit count 0, because the source short-circuits blank patterns before
matching. -/
theorem find_word_occurrences_empty_pattern_cex :
    occursCI "" docPlainX.document_content = true
    ∧ find_word_occurrences litCompile [docPlainX] "" = ([], 0) := by decide

/-- Claim C1 (amended): for every table and every nonblank pattern `P`, the
term matcher counts a document as matched iff `P` occurs at least once in
its content case-insensitively, and the hit count equals the number of
matching documents — a document with many occurrences contributes exactly
1, since membership in the filter is a Boolean per-document decision. -/
theorem find_word_occurrences_nonblank_spec (table : List Row) (P : String)
    (h : isBlank P = false) :
    find_word_occurrences litCompile table P
      = (table.filter (fun r => occursCI P r.document_content),
         (table.filter (fun r => occursCI P r.document_content)).length) := by
  unfold find_word_occurrences litCompile
  rw [if_neg (by rw [h]; exact Bool.false_ne_true)]

/-- Witness for C1: the pattern `"zebra"` is nonblank, and a document that
contains `"Zebra"` and `"zebra"` (two occurrences, mixed case) is matched
and contributes exactly 1 to the hit count. -/
theorem find_word_occurrences_nonblank_spec_witness :
    isBlank "zebra" = false
    ∧ find_word_occurrences litCompile [docDoubleZebra] "zebra" = ([docDoubleZebra], 1) :=
  ⟨by decide,
   (find_word_occurrences_nonblank_spec [docDoubleZebra] "zebra" (by decide)).trans
     (by decide)⟩

/-- Claim C4: for every table, an empty or all-whitespace pattern, and
every pattern the regex engine fails to compile, the term matcher — both
the standalone `find_word_occurrences` and the per-term matcher inside
`find_words_frequency` — returns zero matched rows and hit count 0 (the
exception is caught; in the model both functions are total). -/
theorem matcher_invalid_or_blank_spec (compile : String → Option (String → Bool))
    (base : List Row) (word : String)
    (h : isBlank word = true ∨ compile word = none) :
    find_word_occurrences compile base word = ([], 0)
    ∧ _process_word compile base word = [] := by
  rcases h with h | h
  · constructor <;> simp [find_word_occurrences, _process_word, h]
  · constructor <;> simp [find_word_occurrences, _process_word, h]

/-- Witness for C4: under a regex engine that rejects the pattern `"["`
(unbalanced bracket, as Python's `re` does), the matcher returns no rows
and count 0. -/
theorem matcher_invalid_or_blank_spec_witness :
    (isBlank "[" = true ∨ compileRejecting "[" = none)
    ∧ find_word_occurrences compileRejecting [docPlainX] "[" = ([], 0)
    ∧ _process_word compileRejecting [docPlainX] "[" = [] := by
  have h := matcher_invalid_or_blank_spec compileRejecting [docPlainX] "[" (Or.inr rfl)
  exact ⟨Or.inr rfl, h.1, h.2⟩

/-- Claim C3, counterexample to the stated scope: the term list
`["  "]` is entirely blank (all-whitespace) after expansion, yet the query
does not return every row — the whitespace term is truthy, so the code's
falsy check `not search_terms or all(not w for w in search_terms)` does
not fire, the term takes the matched path, is stripped to blank inside the
per-term matcher, and the query returns zero rows and count 0 while the
type- and date-filtered table has a row. -/
theorem find_words_match_all_blank_cex :
    (∀ w ∈ _expand_search_terms_with_themes ["  "], isBlank w = true)
    ∧ find_words_frequency litCompile [docPlainX] ["  "] [] none true = ([], 0)
    ∧ (typRestrict [] (sliceForFilter [docPlainX] none)).length = 1 := by decide

/-- Claim C3 (amended): a query whose term list after expansion is empty
or consists entirely of *empty-string* terms (the falsy terms of the
source's check; whitespace-only terms are truthy and instead match
nothing) takes the match-all path: it returns every row of the date- and
type-filtered table, each with count 1, and totalCount equals the number
of those rows. -/
theorem find_words_match_all_spec (compile : String → Option (String → Bool))
    (base_df : List Row) (words tf : List String)
    (dfil : Option (Option Int × Option Int)) (ex : Bool)
    (h : (if ex then _expand_search_terms_with_themes words else words) = []
       ∨ ∀ w ∈ (if ex then _expand_search_terms_with_themes words else words), w = "") :
    find_words_frequency compile base_df words tf dfil ex
      = ((typRestrict tf (sliceForFilter base_df dfil)).map (fun r => (r, 1)),
         (typRestrict tf (sliceForFilter base_df dfil)).length) := by
  have hc : ((if ex then _expand_search_terms_with_themes words else words).isEmpty
      || (if ex then _expand_search_terms_with_themes words else words).all
          (fun w => w == "")) = true := by
    rcases h with h | h
    · simp [h]
    · simp only [Bool.or_eq_true, List.all_eq_true, beq_iff_eq]
      exact Or.inr h
  simp only [find_words_frequency]
  rw [if_pos hc]

/-- Witness for C3: an empty word list expands to the empty term list, and
the query returns both rows of the type-filtered table with count 1 and
totalCount 2. -/
theorem find_words_match_all_spec_witness :
    ((if true then _expand_search_terms_with_themes [] else ([] : List String)) = []
      ∨ ∀ w ∈ (if true then _expand_search_terms_with_themes [] else ([] : List String)),
          w = "")
    ∧ find_words_frequency litCompile [docQ, docPlainX] [] ["T"] none true
      = ([(docQ, 1), (docPlainX, 1)], 2) :=
  ⟨Or.inl (by decide),
   (find_words_match_all_spec litCompile [docQ, docPlainX] [] ["T"] none true
      (Or.inl (by decide))).trans (by decide)⟩

/-- Claim C10: every row returned by the query engine carries count 1 —
both on the match-all path and the matched-term path — so summing the
count column over any sub-collection of the returned rows yields exactly
the number of rows in it. -/
theorem matched_rows_count_one_spec (compile : String → Option (String → Bool))
    (base_df : List Row) (words tf : List String)
    (dfil : Option (Option Int × Option Int)) (ex : Bool) :
    (∀ p ∈ (find_words_frequency compile base_df words tf dfil ex).1, p.2 = 1)
    ∧ ∀ sub : List (Row × Nat),
        sub.Sublist (find_words_frequency compile base_df words tf dfil ex).1 →
        (sub.map Prod.snd).sum = sub.length := by
  have h1 : ∀ p ∈ (find_words_frequency compile base_df words tf dfil ex).1, p.2 = 1 := by
    intro p hp
    by_cases hc : ((if ex then _expand_search_terms_with_themes words else words).isEmpty
        || (if ex then _expand_search_terms_with_themes words else words).all
            (fun w => w == "")) = true
    · simp only [find_words_frequency] at hp
      rw [if_pos hc] at hp
      rcases List.mem_map.mp hp with ⟨r, _, rfl⟩
      rfl
    · rw [Bool.not_eq_true] at hc
      rcases (mem_find_words_fst hc).mp hp with ⟨⟨w, _, hpw⟩, _⟩
      exact process_word_snd hpw
  exact ⟨h1, fun sub hsub => sum_map_snd_eq_length (fun p hp => h1 p (hsub.subset hp))⟩

/-- Witness for C10: on a concrete query the sum of the count column over
the returned rows equals the number of returned rows. -/
theorem matched_rows_count_one_spec_witness :
    ((find_words_frequency litCompile [docQ, docDoubleZebra] ["zebra"] [] none true).1.map
        Prod.snd).sum
      = (find_words_frequency litCompile [docQ, docDoubleZebra] ["zebra"] [] none true).1.length :=
  (matched_rows_count_one_spec litCompile [docQ, docDoubleZebra] ["zebra"] [] none true).2
    _ (List.Sublist.refl _)

theorem mem_find_words_fst_true {compile : String → Option (String → Bool)}
    {base_df : List Row} {words : List String} {tf : List String}
    {dfil : Option (Option Int × Option Int)} {p : Row × Nat} {t0 : String}
    (ht : t0 ∈ _expand_search_terms_with_themes words) (h0 : t0 ≠ "") :
    p ∈ (find_words_frequency compile base_df words tf dfil true).1 ↔
      (∃ w ∈ _expand_search_terms_with_themes words,
          p ∈ _process_word compile (sliceForFilter base_df dfil) w)
        ∧ (tf.isEmpty = true ∨ p.1.typ ∈ tf) :=
  mem_find_words_fst
    (searchCond_false
      (show t0 ∈ (if true then _expand_search_terms_with_themes words else words) from ht) h0)

theorem expand_pair_split (A B w : String) :
    w ∈ _expand_search_terms_with_themes [A, B]
      ↔ w ∈ _expand_search_terms_with_themes [A]
        ∨ w ∈ _expand_search_terms_with_themes [B] := by
  simp only [mem_expand, List.mem_cons, List.mem_singleton, List.not_mem_nil, or_false]
  constructor
  · rintro ⟨u, (rfl | rfl), hw⟩
    · exact Or.inl ⟨u, rfl, hw⟩
    · exact Or.inr ⟨u, rfl, hw⟩
  · rintro (⟨u, rfl, hw⟩ | ⟨u, rfl, hw⟩)
    · exact ⟨u, Or.inl rfl, hw⟩
    · exact ⟨u, Or.inr rfl, hw⟩

/-- Claim C2, counterexample to the unrestricted statement: with `A = ""`
and `B = "zebra"`, the singleton query `[""]` falls into the match-all
special case (2 rows) while the two-term query `["", "zebra"]` drops the
empty term during expansion and matches only 1 row, so its totalCount is
not the size of the union of the two singleton result sets. -/
theorem find_words_union_cex :
    (find_words_frequency litCompile [docPlainX, docZebraEins] ["", "zebra"] [] none true).2
      ≠ ((find_words_frequency litCompile [docPlainX, docZebraEins] [""] [] none
            true).1.toFinset
          ∪ (find_words_frequency litCompile [docPlainX, docZebraEins] ["zebra"] [] none
            true).1.toFinset).card := by decide

/-- Claim C2 (amended): for every source table, filters, and any two
nonempty terms `A` and `B`, the result rows for `[A, B]` equal, as a set,
the union of the result-row sets for `[A]` and `[B]`, and totalCount for
`[A, B]` equals the size of that de-duplicated union. -/
theorem find_words_union_spec (compile : String → Option (String → Bool))
    (base_df : List Row) (A B : String) (tf : List String)
    (dfil : Option (Option Int × Option Int)) (hA : A ≠ "") (hB : B ≠ "") :
    ((find_words_frequency compile base_df [A, B] tf dfil true).1.toFinset
      = (find_words_frequency compile base_df [A] tf dfil true).1.toFinset
        ∪ (find_words_frequency compile base_df [B] tf dfil true).1.toFinset)
    ∧ (find_words_frequency compile base_df [A, B] tf dfil true).2
      = ((find_words_frequency compile base_df [A] tf dfil true).1.toFinset
        ∪ (find_words_frequency compile base_df [B] tf dfil true).1.toFinset).card := by
  have hAe : A ∈ _expand_search_terms_with_themes [A] :=
    (mem_expand _ _).mpr ⟨A, List.mem_singleton_self A, hA, Or.inl rfl⟩
  have hBe : B ∈ _expand_search_terms_with_themes [B] :=
    (mem_expand _ _).mpr ⟨B, List.mem_singleton_self B, hB, Or.inl rfl⟩
  have hABe : A ∈ _expand_search_terms_with_themes [A, B] :=
    (expand_pair_split A B A).mpr (Or.inl hAe)
  have hset : (find_words_frequency compile base_df [A, B] tf dfil true).1.toFinset
      = (find_words_frequency compile base_df [A] tf dfil true).1.toFinset
        ∪ (find_words_frequency compile base_df [B] tf dfil true).1.toFinset := by
    ext p
    simp only [Finset.mem_union, List.mem_toFinset]
    rw [mem_find_words_fst_true hABe hA, mem_find_words_fst_true hAe hA,
      mem_find_words_fst_true hBe hB]
    constructor
    · rintro ⟨⟨w, hw, hpw⟩, hty⟩
      rcases (expand_pair_split A B w).mp hw with h | h
      · exact Or.inl ⟨⟨w, h, hpw⟩, hty⟩
      · exact Or.inr ⟨⟨w, h, hpw⟩, hty⟩
    · rintro (⟨⟨w, hw, hpw⟩, hty⟩ | ⟨⟨w, hw, hpw⟩, hty⟩)
      · exact ⟨⟨w, (expand_pair_split A B w).mpr (Or.inl hw), hpw⟩, hty⟩
      · exact ⟨⟨w, (expand_pair_split A B w).mpr (Or.inr hw), hpw⟩, hty⟩
  have hnodup : (find_words_frequency compile base_df [A, B] tf dfil true).1.Nodup :=
    nodup_find_words_fst
      (searchCond_false
        (show A ∈ (if true then _expand_search_terms_with_themes [A, B] else [A, B])
          from hABe) hA)
  refine ⟨hset, ?_⟩
  rw [find_words_snd, ← List.toFinset_card_of_nodup hnodup, hset]

/-- Witness for C2: two concrete nonempty terms on a two-row table; the
two-term result set is the union of the singleton result sets and the
totalCount is the union's cardinality. -/
theorem find_words_union_spec_witness :
    ("zebra" : String) ≠ "" ∧ ("q" : String) ≠ ""
    ∧ ((find_words_frequency litCompile [docQ, docZebraEins] ["zebra", "q"] [] none
          true).1.toFinset
        = (find_words_frequency litCompile [docQ, docZebraEins] ["zebra"] [] none
            true).1.toFinset
          ∪ (find_words_frequency litCompile [docQ, docZebraEins] ["q"] [] none
            true).1.toFinset)
    ∧ (find_words_frequency litCompile [docQ, docZebraEins] ["zebra", "q"] [] none true).2
      = ((find_words_frequency litCompile [docQ, docZebraEins] ["zebra"] [] none
            true).1.toFinset
          ∪ (find_words_frequency litCompile [docQ, docZebraEins] ["q"] [] none
            true).1.toFinset).card := by
  have h := find_words_union_spec litCompile [docQ, docZebraEins] "zebra" "q" [] none
    (by decide) (by decide)
  exact ⟨by decide, by decide, h.1, h.2⟩

theorem nodup_themeStep {acc : List String} (h : acc.Nodup) (w : String)
    (tp : String × List String) : (themeStep w acc tp).Nodup := by
  unfold themeStep
  split
  · exact nodup_addNew (nodup_foldl_addNew _ _ h) _
  · exact h

theorem nodup_foldl_themeStep (l : List (String × List String)) (w : String) :
    ∀ acc : List String, acc.Nodup → (l.foldl (themeStep w) acc).Nodup := by
  induction l with
  | nil => exact fun acc h => h
  | cons a as ih => exact fun acc h => ih _ (nodup_themeStep h w a)

theorem nodup_wordStep {acc : List String} (h : acc.Nodup) (w : String) :
    (wordStep acc w).Nodup := by
  unfold wordStep
  split
  · exact h
  · exact nodup_foldl_themeStep _ _ _ (nodup_addNew h _)

theorem nodup_foldl_wordStep (ws : List String) :
    ∀ acc : List String, acc.Nodup → (ws.foldl wordStep acc).Nodup := by
  induction ws with
  | nil => exact fun acc h => h
  | cons a as ih => exact fun acc h => ih _ (nodup_wordStep h a)

theorem theme_vocab_ne_empty :
    ∀ tp ∈ THEME_MAP, pyLower tp.1 ≠ "" ∧ ∀ p ∈ tp.2, pyLower p ≠ "" := by decide

theorem themeMatches_ne_empty {w : String} {tp : String × List String}
    (htp : tp ∈ THEME_MAP) (hm : themeMatches w tp = true) : w ≠ "" := by
  rintro rfl
  rcases (decide_eq_true_eq.mp hm) with h | h
  · exact (theme_vocab_ne_empty tp htp).1 h.symm
  · rcases List.mem_map.mp h with ⟨p, hp, hpl⟩
    exact (theme_vocab_ne_empty tp htp).2 p hp hpl

/-- Claim C5, counterexample to the unrestricted statement: the input term
`""` is not kept in the expansion output (the source skips falsy terms),
so expansion does not keep *every* input term. -/
theorem theme_expansion_empty_term_cex :
    "" ∈ [""] ∧ "" ∉ _expand_search_terms_with_themes [""] := by decide

set_option maxHeartbeats 4000000 in
set_option maxRecDepth 100000 in
/-- Claim C5 (amended): theme expansion keeps each *nonempty* input term;
whenever a term case-insensitively equals a theme name or one of that
theme's phrases, the output contains the theme name and all its phrases;
the output is duplicate-free (a set); and, on the concrete lexicon,
expanding a theme name, any single phrase of a theme, or the full
already-expanded output yields exactly the theme's phrase set plus the
theme name (idempotence on expanded output). -/
theorem theme_expansion_spec :
    (∀ (words : List String) (w : String), w ∈ words → w ≠ "" →
        w ∈ _expand_search_terms_with_themes words)
    ∧ (∀ (words : List String) (w : String) (tp : String × List String),
        w ∈ words → tp ∈ THEME_MAP → themeMatches w tp = true →
        tp.1 ∈ _expand_search_terms_with_themes words
        ∧ ∀ p ∈ tp.2, p ∈ _expand_search_terms_with_themes words)
    ∧ (∀ words : List String, (_expand_search_terms_with_themes words).Nodup)
    ∧ (∀ tp ∈ THEME_MAP,
        (_expand_search_terms_with_themes [tp.1]).toFinset = (tp.1 :: tp.2).toFinset
        ∧ (∀ p ∈ tp.2,
            (_expand_search_terms_with_themes [p]).toFinset = (tp.1 :: tp.2).toFinset)
        ∧ (_expand_search_terms_with_themes (tp.1 :: tp.2)).toFinset
            = (tp.1 :: tp.2).toFinset) := by
  refine ⟨?_, ?_, ?_, ?_⟩
  · intro words w hw h0
    exact (mem_expand _ _).mpr ⟨w, hw, h0, Or.inl rfl⟩
  · intro words w tp hw htp hmatch
    have h0 : w ≠ "" := themeMatches_ne_empty htp hmatch
    constructor
    · exact (mem_expand _ _).mpr ⟨w, hw, h0, Or.inr ⟨tp, htp, hmatch, Or.inl rfl⟩⟩
    · intro p hp
      exact (mem_expand _ _).mpr ⟨w, hw, h0, Or.inr ⟨tp, htp, hmatch, Or.inr hp⟩⟩
  · intro words
    exact nodup_foldl_wordStep _ _ List.nodup_nil
  · decide

/-- Witness for C5: the phrase `"Miete"` is kept, pulls in its theme name
`"Wohnen"` and sibling phrase `"Mietspiegel"`. -/
theorem theme_expansion_spec_witness :
    "Miete" ∈ _expand_search_terms_with_themes ["Miete"]
    ∧ "Wohnen" ∈ _expand_search_terms_with_themes ["Miete"]
    ∧ "Mietspiegel" ∈ _expand_search_terms_with_themes ["Miete"] := by
  have h1 := theme_expansion_spec.1 ["Miete"] "Miete" (by decide) (by decide)
  have h2 := theme_expansion_spec.2.1 ["Miete"] "Miete"
    ("Wohnen",
      ["Wohnung", "Miete", "Mietspiegel", "Wohnraum", "Zimmer", "Vermietung",
       "Untermiete"]) (by decide) (by decide) (by decide)
  exact ⟨h1, h2.1, h2.2 "Mietspiegel" (by decide)⟩

theorem valid_days_empty_iff (rows : List (Row × Nat)) :
    ((rows.filter (fun p => p.1.erledigt_am.isSome)).filterMap (fun p =>
        match p.1.erledigt_am, p.1.gestellt_am with
        | some e, some g => some (e - g)
        | _, _ => none) = [])
      ↔ ∀ p ∈ rows, p.1.erledigt_am.isSome = false ∨ p.1.gestellt_am.isSome = false := by
  rw [List.filterMap_eq_nil_iff]
  constructor
  · intro h p hp
    cases he : p.1.erledigt_am with
    | none => exact Or.inl rfl
    | some e =>
      cases hg : p.1.gestellt_am with
      | none => exact Or.inr rfl
      | some g =>
        exfalso
        have hpc : p ∈ rows.filter (fun p => p.1.erledigt_am.isSome) :=
          List.mem_filter.mpr ⟨hp, by rw [he]; rfl⟩
        have hnone := h p hpc
        rw [he, hg] at hnone
        cases hnone
  · intro h p hp
    rcases List.mem_filter.mp hp with ⟨hpr, hps⟩
    rcases h p hpr with h1 | h1
    · rw [h1] at hps
      cases hps
    · cases he : p.1.erledigt_am with
      | none => rfl
      | some e =>
        cases hg : p.1.gestellt_am with
        | none => rfl
        | some g =>
          rw [hg] at h1
          cases h1

/-- Claim C7, counterexample to the stated iff: a matched set whose single
row is closed (`Erledigt am` present) but has an unparseable submission
date yields `closedCount = 1` with `avgDays = none` — `avgDays` can be
null even when `closedCount ≠ 0`, because the duration of such a row is
`NaN` and is dropped before the mean. -/
theorem processing_metrics_avgdays_cex :
    compute_processing_metrics litCompile [docClosedNoDate] [] [] none
      = ⟨none, 0, 1, 1⟩
    ∧ ¬((compute_processing_metrics litCompile [docClosedNoDate] [] [] none).avgDays = none
        ↔ (compute_processing_metrics litCompile [docClosedNoDate] [] [] none).closedCount
            = 0) := by
  have h : compute_processing_metrics litCompile [docClosedNoDate] [] [] none
      = ⟨none, 0, 1, 1⟩ := rfl
  refine ⟨h, ?_⟩
  rw [h]
  simp

/-- Claim C7 (amended): for every source, term list and filters,
`openCount + closedCount = totalCount`; and `avgDays` is null iff no
matched row has both a completion date and a parseable submission date
(in particular `closedCount = 0` implies `avgDays` null, but not
conversely). -/
theorem processing_metrics_spec (compile : String → Option (String → Bool))
    (base_df : List Row) (words tf : List String)
    (dfil : Option (Option Int × Option Int)) :
    (compute_processing_metrics compile base_df words tf dfil).openCount
      + (compute_processing_metrics compile base_df words tf dfil).closedCount
      = (compute_processing_metrics compile base_df words tf dfil).totalCount
    ∧ ((compute_processing_metrics compile base_df words tf dfil).avgDays = none
        ↔ ∀ p ∈ (find_words_frequency compile base_df words tf dfil true).1,
            p.1.erledigt_am.isSome = false ∨ p.1.gestellt_am.isSome = false) := by
  simp only [compute_processing_metrics]
  split
  · next h =>
    rw [List.isEmpty_iff] at h
    rw [h]
    simp
  · next h =>
    constructor
    · dsimp only
      have heq : ((find_words_frequency compile base_df words tf dfil true).1.filter
            (fun p => p.1.erledigt_am.isNone))
          = (find_words_frequency compile base_df words tf dfil true).1.filter
            (fun p => !p.1.erledigt_am.isSome) := by
        apply List.filter_congr
        intro p _
        cases p.1.erledigt_am <;> rfl
      rw [heq]
      have := length_filter_add_not (find_words_frequency compile base_df words tf dfil true).1
        (fun p => p.1.erledigt_am.isSome)
      omega
    · dsimp only
      cases hv : ((find_words_frequency compile base_df words tf dfil
          true).1.filter (fun p => p.1.erledigt_am.isSome)).filterMap (fun p =>
            match p.1.erledigt_am, p.1.gestellt_am with
            | some e, some g => some (e - g)
            | _, _ => none) with
      | nil =>
        simp only [List.isEmpty_nil, if_true]
        exact iff_of_true trivial ((valid_days_empty_iff _).mp hv)
      | cons a as =>
        simp only [List.isEmpty_cons, Bool.false_eq_true, if_false]
        refine iff_of_false (by simp) (fun hR => ?_)
        have := (valid_days_empty_iff
          (find_words_frequency compile base_df words tf dfil true).1).mpr hR
        rw [this] at hv
        cases hv

/-- Claim C6, exhibiting the divergence: with a from-only date filter over
a table containing rows with unparseable submission dates, the totals pass
(date *mask*, which drops `NaT` rows) sees 1 document for submitter `"A"`
while the matched pass (`_slice_by_date`, which keeps the trailing `NaT`
rows when no upper bound is given) matches 2, so the reported share is
`2/1 = 2 > 1` — contradicting the function's own docstring
`share: count / total (float in [0,1])`. -/
theorem fraktionen_share_exceeds_one_bug :
    compute_fraktionen_share litCompile [docQ, docZebraEins, docZebraZwei] ["zebra"] []
        (some (some (-1), none))
      = [{ name := "A", count := 2, total := 1,
           share := ((2 : Nat) : ℚ) / ((1 : Nat) : ℚ) }]
    ∧ ∃ e ∈ compute_fraktionen_share litCompile [docQ, docZebraEins, docZebraZwei]
        ["zebra"] [] (some (some (-1), none)), 1 < e.share := by
  have h : compute_fraktionen_share litCompile [docQ, docZebraEins, docZebraZwei] ["zebra"]
      [] (some (some (-1), none))
      = [{ name := "A", count := 2, total := 1,
           share := ((2 : Nat) : ℚ) / ((1 : Nat) : ℚ) }] := rfl
  refine ⟨h, ?_⟩
  rw [h]
  refine ⟨_, List.mem_singleton_self _, ?_⟩
  norm_num

/-- Claim C8, counterexample to the universal statement: on an unavailable
source, `compute_date_range` and `get_available_typen` do *not* propagate
the failure — they catch it internally and return null bounds / an empty
list. -/
theorem source_error_recovery_cex :
    compute_date_rangeE (Except.error "SourceUnavailable") = ⟨none, none⟩
    ∧ get_available_typenE (Except.error "SourceUnavailable") = [] := ⟨rfl, rfl⟩

/-- Claim C8 (amended): the loader's `SourceUnavailable` failure propagates
unhandled out of the query engine and the aggregations built on it
(find, monthly trend, per-submitter counts, submitter share, processing
metrics); the date-range and available-types operations instead recover
internally, returning null/empty results. -/
theorem source_error_propagation_spec (e : String) (monthKey : Int → String)
    (compile : String → Option (String → Bool)) (words tf : List String)
    (dfil : Option (Option Int × Option Int)) (ex : Bool) :
    find_words_frequencyE compile (.error e) words tf dfil ex = .error e
    ∧ compute_monthly_trendE monthKey compile (.error e) words tf dfil = .error e
    ∧ compute_fraktionenE compile (.error e) words tf dfil = .error e
    ∧ compute_fraktionen_shareE compile (.error e) words tf dfil = .error e
    ∧ compute_processing_metricsE compile (.error e) words tf dfil = .error e
    ∧ compute_date_rangeE (.error e) = ⟨none, none⟩
    ∧ get_available_typenE (.error e) = [] :=
  ⟨rfl, rfl, rfl, rfl, rfl, rfl, rfl⟩

/-- Claim C9: loading an unchanged source a second time returns the
identical table and leaves the cache unchanged, and a load after the
source's modification time changed returns the (date-sorted) new on-disk
content, cached under the new modification time. Callers receive values
(the model's immutable lists), matching the source's `.copy()` discipline
under which caller-side mutation cannot affect later loads. -/
theorem load_data_cached_spec (disk disk' : Disk) (cache : Cache) (file : String)
    (mt mt' : Int) (raw raw' t1 : List Row) (c1 : Cache)
    (h1 : disk file = some (mt, raw))
    (h2 : _load_data_cached disk cache file = .ok (t1, c1))
    (h3 : disk' file = some (mt', raw'))
    (h4 : mt' ≠ mt) :
    _load_data_cached disk c1 file = .ok (t1, c1)
    ∧ _load_data_cached disk' c1 file
      = .ok (sortByDate raw', cacheStore c1 file mt' (sortByDate raw')) := by
  unfold _load_data_cached at h2 ⊢
  rw [h1] at h2
  rw [h1, h3]
  dsimp only at h2 ⊢
  cases hf : cache.find? (fun en => en.1 == file) with
  | some en =>
    rw [hf] at h2
    dsimp only at h2
    by_cases hmt : en.2.1 = mt
    · rw [if_pos hmt] at h2
      simp only [Except.ok.injEq, Prod.mk.injEq] at h2
      obtain ⟨ht, hc⟩ := h2
      subst ht
      subst hc
      constructor
      · rw [hf]
        dsimp only
        rw [if_pos hmt]
      · rw [hf]
        dsimp only
        rw [if_neg (fun hh : en.2.1 = mt' => h4 (hh.symm.trans hmt))]
    · rw [if_neg hmt] at h2
      simp only [Except.ok.injEq, Prod.mk.injEq] at h2
      obtain ⟨ht, hc⟩ := h2
      subst ht
      subst hc
      constructor
      · simp only [cacheStore]
        rw [List.find?_cons_of_pos _ (by simp)]
        dsimp only
        rw [if_pos rfl]
      · simp only [cacheStore]
        rw [List.find?_cons_of_pos _ (by simp)]
        dsimp only
        rw [if_neg (fun hh : mt = mt' => h4 hh.symm)]
  | none =>
    rw [hf] at h2
    dsimp only at h2
    simp only [Except.ok.injEq, Prod.mk.injEq] at h2
    obtain ⟨ht, hc⟩ := h2
    subst ht
    subst hc
    constructor
    · simp only [cacheStore]
      rw [List.find?_cons_of_pos _ (by simp)]
      dsimp only
      rw [if_pos rfl]
    · simp only [cacheStore]
      rw [List.find?_cons_of_pos _ (by simp)]
      dsimp only
      rw [if_neg (fun hh : mt = mt' => h4 hh.symm)]

/-- Witness for C9: a concrete disk with one unsorted two-row file; the
first load sorts and caches it, the second load returns the identical
table from the cache, and a load after the modification time changes
(3 to 5) returns the new content. -/
theorem load_data_cached_spec_witness :
    diskV1 "data.csv" = some (3, [docZebraEins, docQ])
    ∧ _load_data_cached diskV1 [] "data.csv"
      = .ok ([docQ, docZebraEins], [("data.csv", 3, [docQ, docZebraEins])])
    ∧ diskV2 "data.csv" = some (5, [docQ])
    ∧ (5 : Int) ≠ 3
    ∧ _load_data_cached diskV1 [("data.csv", 3, [docQ, docZebraEins])] "data.csv"
      = .ok ([docQ, docZebraEins], [("data.csv", 3, [docQ, docZebraEins])])
    ∧ _load_data_cached diskV2 [("data.csv", 3, [docQ, docZebraEins])] "data.csv"
      = .ok (sortByDate [docQ],
          cacheStore [("data.csv", 3, [docQ, docZebraEins])] "data.csv" 5
            (sortByDate [docQ])) := by
  have h := load_data_cached_spec diskV1 diskV2 [] "data.csv" 3 5 [docZebraEins, docQ]
    [docQ] [docQ, docZebraEins] [("data.csv", 3, [docQ, docZebraEins])]
    rfl rfl rfl (by decide)
  exact ⟨rfl, rfl, rfl, by decide, h.1, h.2⟩

/-- Witness for C7: an instance of the partition invariant on a concrete
matched set. -/
theorem processing_metrics_spec_witness :
    (compute_processing_metrics litCompile [docQ] ["q"] [] none).openCount
      + (compute_processing_metrics litCompile [docQ] ["q"] [] none).closedCount
      = (compute_processing_metrics litCompile [docQ] ["q"] [] none).totalCount :=
  (processing_metrics_spec litCompile [docQ] ["q"] [] none).1

/-- Witness for C8: propagation of a concrete loader failure through the
query engine. -/
theorem source_error_propagation_spec_witness :
    find_words_frequencyE litCompile (.error "gone") [] [] none true = .error "gone" :=
  (source_error_propagation_spec "gone" (fun _ => "") litCompile [] [] none true).1
